import Mathlib

/-!
Verification of the restaurant-sheet reconciliation engine (`app.py`).

The program reads all rows of a spreadsheet, ensures a fixed header row is
present, scans for rows whose address or Google-Maps-URL cell is empty,
partitions those row indices into batches, resolves each batch row against a
place-lookup service, and writes each batch back as one contiguous range
update `B{start}:D{end}`.

The embedding below translates `update_google_sheet` (and the sheet-name
resolution of `trigger_update`) into pure Lean functions.  A row of the
sheet is modelled as a fixed-width five-field record, matching the
program's own data model (`get_all_values` returns rectangular data and the
code pads each row to width 5 before unpacking).  The lookup client is an
oracle `String → LookupOutcome` whose three cases model: an exception
raised by the call (any exception inside the per-row `try` block), an empty
`results` list, and a first result carrying the two optional dictionary
fields the code reads.  The current date is passed in as a string.  The
effect of a range update on the durable sheet follows the Sheets API
semantics used by `sheet.update`: the payload is written top-aligned at the
start of the range into columns B..D, and cells of the range not covered by
the payload are left untouched.
-/

namespace RestaurantTracker

/-- One spreadsheet row, as the fixed-width tuple
`(name, address, reference_url, date_added, notes)` of columns A..E. -/
structure Row where
  name : String
  address : String
  reference_url : String
  date_added : String
  notes : String
deriving DecidableEq, Repr, Inhabited

/-- Line 68: the literal header row. -/
def headers : Row :=
  { name := "Restaurant Name", address := "Address", reference_url := "Google Maps URL",
    date_added := "Date Added", notes := "Notes" }

/-- The two fields the code reads from the first lookup result dictionary:
`formatted_address` and `place_id`, each possibly absent. -/
structure PlaceMatch where
  formatted_address : Option String
  place_id : Option String
deriving DecidableEq, Repr

/-- Outcome of one `gmaps.places` call for a query, as observed by the
per-row `try` block: an exception of any kind (both `except` arms behave
identically), an empty `results` list, or a first result. -/
inductive LookupOutcome where
  | apiError (msg : String)
  | noMatch
  | found (m : PlaceMatch)
deriving DecidableEq, Repr

/-- `row[1:4]`: the `(address, reference_url, date_added)` slice. -/
def Row.slice14 (r : Row) : List String :=
  [r.address, r.reference_url, r.date_added]

/-- Line 97: the canonical deep link built from a place identifier. -/
def deepLink (p : String) : String :=
  "https://www.google.com/maps/place/?q=place_id:" ++ p

/-- Line 74 and line 86: `not row[1] or not row[2]` (Python string
truthiness: empty means falsy). -/
def rowIncomplete (r : Row) : Bool :=
  decide (r.address = "" ∨ r.reference_url = "")

/-- Lines 83-121: the body of the per-row loop.  Returns the triple that is
appended to `updated_data` together with the logged error message when the
lookup raised.  `place_id` uses Python truthiness (`if place_id`): both a
missing key and an empty string select the fallback text. -/
def resolveRow (lookup : String → LookupOutcome) (today : String) (row : Row) :
    List String × Option String :=
  if rowIncomplete row then
    match lookup row.name with
    | .found m =>
        let new_address := m.formatted_address.getD "No address found"
        let place_id := m.place_id.getD ""
        let new_google_maps_url :=
          if place_id = "" then "No Google Maps URL found" else deepLink place_id
        let new_date := if row.date_added = "" then today else row.date_added
        ([new_address, new_google_maps_url, new_date], none)
    | .noMatch => (row.slice14, none)
    | .apiError e => (row.slice14, some e)
  else (row.slice14, none)

/-- Line 74: `[index for index, row in enumerate(data) if not row[1] or not
row[2]]` (0-based indices into the normalized snapshot). -/
def scanIndices (data : List Row) : List Nat :=
  (data.enum.filter fun p => rowIncomplete p.2).map Prod.fst

/-- Fuel-driven slicing `row_indices[i : i + b]` for `i = 0, b, 2b, ...`:
the batches produced by `range(0, total_rows, b)` for a positive step `b`.
The fuel is an upper bound on the number of loop iterations. -/
def toBatchesAux (b : Nat) : Nat → List Nat → List (List Nat)
  | 0, _ => []
  | _, [] => []
  | fuel + 1, l => l.take b :: toBatchesAux b fuel (l.drop b)

/-- The batch list for a positive step `b`. -/
def toBatches (b : Nat) (l : List Nat) : List (List Nat) :=
  toBatchesAux b l.length l

/-- One `sheet.update` call: the literal column letters of the range string
`f"B{start_row}:D{end_row}"`, its 1-based start and end rows, and the
payload rows. -/
structure SheetWrite where
  colStart : String
  colEnd : String
  startRow : Nat
  endRow : Nat
  payload : List (List String)
deriving DecidableEq, Repr

/-- Lines 79-125 for one batch: gather `batch_data`, resolve every row, and
build the single range write `B{first+1}:D{last+1}` whose payload is the
`updated_data` list, together with the logged per-row failures. -/
def batchWrite (data : List Row) (lookup : String → LookupOutcome) (today : String)
    (batchIndices : List Nat) : SheetWrite × List String :=
  let batchData := batchIndices.map fun index => data.getD index default
  let results := batchData.map (resolveRow lookup today)
  ({ colStart := "B", colEnd := "D",
     startRow := batchIndices.headD 0 + 1,
     endRow := batchIndices.getLastD 0 + 1,
     payload := results.map Prod.fst },
   results.filterMap Prod.snd)

/-- Lines 68-72: compare row 1 of the snapshot to the header and insert the
header at position 1 (in the durable store and the snapshot alike) when
they differ.  `data[0]` on an empty snapshot raises `IndexError`, modelled
as `none`.  The returned flag records whether `insert_row` was called. -/
def normalizeData (data : List Row) : Option (Bool × List Row) :=
  match data with
  | [] => none
  | r0 :: rest =>
      if r0 = headers then some (false, r0 :: rest)
      else some (true, headers :: r0 :: rest)

/-- How `update_google_sheet` can raise before completing: `IndexError`
from `data[0]` on an empty snapshot, or `ValueError` from
`range(0, total_rows, 0)`.  The second carries the state already mutated
before the raise: whether the header was inserted, and the normalized
snapshot. -/
inductive PassError where
  | emptySnapshot
  | zeroBatchStep (insertedHeader : Bool) (snapshot : List Row)
deriving DecidableEq, Repr

/-- A completed pass: whether the header was inserted, the normalized
snapshot the batches were computed from, `total_rows`, the sequence of
range writes issued, and the logged per-row lookup failures. -/
structure PassResult where
  insertedHeader : Bool
  snapshot : List Row
  totalCandidates : Nat
  writes : List SheetWrite
  failures : List String
deriving DecidableEq, Repr, Inhabited

/-- Lines 66-125, `update_google_sheet`: normalize the header, scan for
incomplete rows, and process batch slices `row_indices[i : i + b]` for
`i in range(0, total_rows, batch_size)`.  A zero step raises `ValueError`
when the loop starts (after normalization and scanning); a negative step
makes `range` empty, so the loop body never runs. -/
def update_google_sheet (data0 : List Row) (lookup : String → LookupOutcome)
    (today : String) (batch_size : Int) : Except PassError PassResult :=
  match normalizeData data0 with
  | none => .error .emptySnapshot
  | some (inserted, data) =>
      let row_indices := scanIndices data
      let total_rows := row_indices.length
      if batch_size = 0 then .error (.zeroBatchStep inserted data)
      else if batch_size < 0 then
        .ok { insertedHeader := inserted, snapshot := data, totalCandidates := total_rows,
              writes := [], failures := [] }
      else
        let results := (toBatches batch_size.toNat row_indices).map (batchWrite data lookup today)
        .ok { insertedHeader := inserted, snapshot := data, totalCandidates := total_rows,
              writes := results.map Prod.fst, failures := (results.map Prod.snd).flatten }

/-- Overwrite the B..D cells of one row with one payload row.  A payload
row shorter than three cells leaves the remaining cells untouched (the
writes this pass issues always carry exactly three cells). -/
def setFields (r : Row) (t : List String) : Row :=
  { r with address := t.getD 0 r.address,
           reference_url := t.getD 1 r.reference_url,
           date_added := t.getD 2 r.date_added }

/-- Walk the sheet; the row at 0-based index `startIdx + j` receives
payload row `j` when it exists. -/
def applyWriteAux (payload : List (List String)) (startIdx : Nat) :
    Nat → List Row → List Row
  | _, [] => []
  | i, r :: rs =>
      (match if startIdx ≤ i then payload.get? (i - startIdx) else none with
       | some t => setFields r t
       | none => r) :: applyWriteAux payload startIdx (i + 1) rs

/-- Effect of one `sheet.update(f"B{start}:D{end}", payload)` call on the
durable sheet: the payload is written top-aligned from row `start` into
columns B..D. -/
def applyWrite (sheet : List Row) (w : SheetWrite) : List Row :=
  applyWriteAux w.payload (w.startRow - 1) 0 sheet

/-- The durable table at the end of a pass: the normalized snapshot (the
header insertion is the only mutation besides range writes) with every
batch write applied in order. -/
def run_pass (table : List Row) (lookup : String → LookupOutcome)
    (today : String) (batch_size : Int) : Except PassError (List Row) :=
  match update_google_sheet table lookup today batch_size with
  | .error e => .error e
  | .ok r => .ok (r.writes.foldl applyWrite r.snapshot)

/-- Line 134: the default sheet name. -/
def default_sheet_name : String := "Maine Restaurants"

/-- Lines 134-136 of `trigger_update`: `request.json.get("sheet_name",
"Maine Restaurants")` followed by the blank check that returns the 400
response.  The argument is the JSON body's `sheet_name` field (`none` when
absent). -/
def trigger_sheet_name (sheet_name_field : Option String) : Except String String :=
  let sheet_name := sheet_name_field.getD default_sheet_name
  if sheet_name = "" then .error "Sheet name is required" else .ok sheet_name

/-! ## Concrete tables and oracles used by witnesses and counterexamples -/

/-- An incomplete row: empty address and reference URL. -/
def rowA : Row :=
  { name := "A", address := "", reference_url := "", date_added := "", notes := "" }

/-- A complete row sitting between two incomplete rows. -/
def rowB : Row :=
  { name := "B", address := "b-addr", reference_url := "b-url",
    date_added := "2020-01-01", notes := "note" }

/-- A second incomplete row. -/
def rowC : Row :=
  { name := "C", address := "", reference_url := "", date_added := "", notes := "" }

/-- A table whose incomplete rows (indices 1 and 3) are separated by the
complete row `rowB` at index 2. -/
def exTable : List Row := [headers, rowA, rowB, rowC]

/-- A lookup oracle resolving the two incomplete rows of `exTable`. -/
def exLookup : String → LookupOutcome := fun q =>
  if q = "A" then .found { formatted_address := some "addrA", place_id := some "pidA" }
  else if q = "C" then .found { formatted_address := some "addrC", place_id := some "pidC" }
  else .noMatch

/-- The durable table after one pass over `exTable`. -/
def passOnce : Except PassError (List Row) :=
  run_pass exTable exLookup "2024-05-01" 100

/-- The durable table after a second pass, run on the output of the first
with the same lookup oracle and the same date. -/
def passTwice : Except PassError (List Row) :=
  match passOnce with
  | .ok t1 => run_pass t1 exLookup "2024-05-01" 100
  | .error e => .error e

/-- An incomplete row that already carries a date. -/
def rowD : Row :=
  { name := "D", address := "", reference_url := "", date_added := "2021-02-03", notes := "" }

/-- An oracle whose match carries a present-but-empty place identifier. -/
def emptyIdLookup : String → LookupOutcome := fun _ =>
  .found { formatted_address := some "addrD", place_id := some "" }

/-- The complete data row of spec scenario 2, used with no header above it. -/
def rowHeadless : Row :=
  { name := "Cafe X", address := "123 St", reference_url := "http://maps/x",
    date_added := "2023-01-01", notes := "" }

/-- A lookup match with both fields present and non-empty. -/
def fullMatch : PlaceMatch :=
  { formatted_address := some "1 Main St", place_id := some "abc123" }

/-- An oracle that always returns `fullMatch`. -/
def fullMatchLookup : String → LookupOutcome := fun _ => .found fullMatch

/-- Three incomplete rows for the batch-isolation scenario. -/
def rowF1 : Row := { name := "F1", address := "", reference_url := "", date_added := "", notes := "" }

/-- Second incomplete row of the batch-isolation scenario. -/
def rowF2 : Row := { name := "F2", address := "", reference_url := "", date_added := "", notes := "" }

/-- Third incomplete row of the batch-isolation scenario. -/
def rowF3 : Row := { name := "F3", address := "", reference_url := "", date_added := "", notes := "" }

/-- Scenario 5 of the spec: three incomplete rows under a header. -/
def failTable : List Row := [headers, rowF1, rowF2, rowF3]

/-- An oracle erroring on the first row's name and resolving the second;
the third finds no match. -/
def failLookup : String → LookupOutcome := fun q =>
  if q = "F1" then .apiError "quota exceeded"
  else if q = "F2" then .found fullMatch
  else .noMatch

/-- The pass result of the `exTable` run, extracted for witness use. -/
def exResult : PassResult :=
  (update_google_sheet exTable exLookup "2024-05-01" 100).toOption.getD default

/-- Decidable equality of `Except` values, component-wise. -/
instance {ε α : Type} [DecidableEq ε] [DecidableEq α] : DecidableEq (Except ε α) := fun a b =>
  match a, b with
  | .error x, .error y =>
      if h : x = y then .isTrue (by rw [h]) else .isFalse fun hh => h (Except.error.inj hh)
  | .error _, .ok _ => .isFalse fun hh => Except.noConfusion hh
  | .ok _, .error _ => .isFalse fun hh => Except.noConfusion hh
  | .ok x, .ok y =>
      if h : x = y then .isTrue (by rw [h]) else .isFalse fun hh => h (Except.ok.inj hh)

/-- Claim C1: on `exTable` the single batch spans indices 1 and 3, so its
write covers the three sheet rows 2..4, yet the payload holds only two
rows — one per batch member, none for the in-between row — contradicting
the claim that the payload has one row of values for every position of the
literal range. -/
theorem C1_batch_payload_shorter_than_range :
    ((update_google_sheet exTable exLookup "2024-05-01" 100).toOption.map
        fun r => r.writes.map fun w => (w.startRow, w.endRow, w.payload.length))
      = some [(2, 4, 2)] ∧ 4 - 2 + 1 = 3 := by decide

/-- Claim C2: a second pass over the result of the first (same oracle, same
date) produces a different table: the first pass top-aligned the two
payload rows into rows 2 and 3, clobbering the complete row 3 and leaving
row 4 incomplete, so the second pass still finds and fills row 4. -/
theorem C2_second_pass_changes_table :
    passOnce.isOk = true ∧ passTwice.isOk = true ∧
      passTwice.toOption ≠ passOnce.toOption := by decide

/-- Claim C3: the address cell of row index 2 of `exTable` is the non-empty
string `b-addr` before the pass and the different string `addrC` after it —
a non-empty field changed by a pass. -/
theorem C3_nonempty_field_changed :
    (exTable.getD 2 default).address = "b-addr" ∧
      ((run_pass exTable exLookup "2024-05-01" 100).toOption.map
          fun t => (t.getD 2 default).address)
        = some "addrC" ∧ "addrC" ≠ "b-addr" := by decide

/-! ## Helper lemmas -/

/-- Every triple the per-row loop appends has exactly three cells. -/
theorem resolveRow_fst_length (lookup : String → LookupOutcome) (today : String) (row : Row) :
    (resolveRow lookup today row).1.length = 3 := by
  unfold resolveRow
  split
  · cases lookup row.name <;> simp [Row.slice14]
  · simp [Row.slice14]

/-- Membership in the scanner output: exactly the indices of rows whose
incompleteness test holds. -/
theorem mem_scanIndices {data : List Row} {i : Nat} :
    i ∈ scanIndices data ↔ ∃ r, data[i]? = some r ∧ rowIncomplete r = true := by
  unfold scanIndices
  simp only [List.mem_map, List.mem_filter]
  constructor
  · rintro ⟨⟨j, r⟩, ⟨hmem, hp⟩, rfl⟩
    exact ⟨r, List.mk_mem_enum_iff_getElem?.1 hmem, hp⟩
  · rintro ⟨r, hget, hp⟩
    exact ⟨(i, r), ⟨List.mk_mem_enum_iff_getElem?.2 hget, hp⟩, rfl⟩

/-- The scanner output is strictly ascending. -/
theorem scanIndices_sorted (data : List Row) : (scanIndices data).Pairwise (· < ·) := by
  unfold scanIndices
  rw [List.pairwise_map]
  refine List.Pairwise.sublist (List.filter_sublist _) ?_
  have h : (data.enum.map Prod.fst).Pairwise (· < ·) := by
    rw [List.enum_map_fst]; exact List.pairwise_lt_range _
  rwa [List.pairwise_map] at h

/-- Concatenating the slices `l[i : i + b]` of a positive step recovers the
list, provided the fuel covers the list length. -/
theorem flatten_toBatchesAux {b : Nat} (hb : 0 < b) :
    ∀ (fuel : Nat) (l : List Nat), l.length ≤ fuel → (toBatchesAux b fuel l).flatten = l := by
  intro fuel
  induction fuel with
  | zero =>
      intro l hl
      have : l = [] := List.eq_nil_of_length_eq_zero (Nat.le_zero.1 hl)
      subst this
      simp [toBatchesAux]
  | succ n ih =>
      intro l hl
      cases l with
      | nil => simp [toBatchesAux]
      | cons x xs =>
          have hdrop : ((x :: xs).drop b).length ≤ n := by
            rw [List.length_drop]
            simp only [List.length_cons] at hl ⊢
            omega
          simp only [toBatchesAux, List.flatten_cons, ih _ hdrop, List.take_append_drop]

/-- The batch partition never reorders, merges or drops an index. -/
theorem flatten_toBatches {b : Nat} (hb : 0 < b) (l : List Nat) :
    (toBatches b l).flatten = l :=
  flatten_toBatchesAux hb l.length l (Nat.le_refl _)

/-- Every batch is a sublist of the scanned index sequence. -/
theorem sublist_of_mem_toBatchesAux {b : Nat} :
    ∀ (fuel : Nat) (l c : List Nat), c ∈ toBatchesAux b fuel l → c.Sublist l := by
  intro fuel
  induction fuel with
  | zero => intro l c hc; simp [toBatchesAux] at hc
  | succ n ih =>
      intro l c hc
      cases l with
      | nil => simp [toBatchesAux] at hc
      | cons x xs =>
          simp only [toBatchesAux, List.mem_cons] at hc
          rcases hc with rfl | hc
          · exact List.take_sublist _ _
          · exact (ih _ _ hc).trans (List.drop_sublist _ _)

/-- Rewriting a range of B..D cells never changes the name column. -/
theorem applyWriteAux_map_name (payload : List (List String)) (s : Nat) :
    ∀ (i : Nat) (sheet : List Row),
      (applyWriteAux payload s i sheet).map Row.name = sheet.map Row.name := by
  intro i sheet
  induction sheet generalizing i with
  | nil => simp [applyWriteAux]
  | cons r rs ih =>
      simp only [applyWriteAux, List.map_cons, ih]
      cases h : (if s ≤ i then payload.get? (i - s) else none) <;> simp [setFields]

/-- Rewriting a range of B..D cells never changes the notes column. -/
theorem applyWriteAux_map_notes (payload : List (List String)) (s : Nat) :
    ∀ (i : Nat) (sheet : List Row),
      (applyWriteAux payload s i sheet).map Row.notes = sheet.map Row.notes := by
  intro i sheet
  induction sheet generalizing i with
  | nil => simp [applyWriteAux]
  | cons r rs ih =>
      simp only [applyWriteAux, List.map_cons, ih]
      cases h : (if s ≤ i then payload.get? (i - s) else none) <;> simp [setFields]

/-- Folding any sequence of range writes preserves the name column. -/
theorem foldl_applyWrite_map_name (ws : List SheetWrite) :
    ∀ sheet : List Row, ((ws.foldl applyWrite sheet).map Row.name) = sheet.map Row.name := by
  induction ws with
  | nil => intro sheet; rfl
  | cons w ws ih =>
      intro sheet
      calc ((ws.foldl applyWrite (applyWrite sheet w)).map Row.name)
          = (applyWrite sheet w).map Row.name := ih _
        _ = sheet.map Row.name := applyWriteAux_map_name _ _ _ _

/-- Folding any sequence of range writes preserves the notes column. -/
theorem foldl_applyWrite_map_notes (ws : List SheetWrite) :
    ∀ sheet : List Row, ((ws.foldl applyWrite sheet).map Row.notes) = sheet.map Row.notes := by
  induction ws with
  | nil => intro sheet; rfl
  | cons w ws ih =>
      intro sheet
      calc ((ws.foldl applyWrite (applyWrite sheet w)).map Row.notes)
          = (applyWrite sheet w).map Row.notes := ih _
        _ = sheet.map Row.notes := applyWriteAux_map_notes _ _ _ _

/-! ## Claims C4, C7, C8, C9 -/

/-- Claim C4 counterexample: a match whose place identifier is present but
equal to the empty string.  The claim requires the deep link built from
that identifier; the code's truthiness test selects the fallback text
instead. -/
theorem C4_empty_place_id_counterexample :
    emptyIdLookup rowD.name = .found { formatted_address := some "addrD", place_id := some "" } ∧
      (resolveRow emptyIdLookup "2024-05-01" rowD).1
        = ["addrD", "No Google Maps URL found", "2021-02-03"] ∧
      "No Google Maps URL found" ≠ deepLink "" := by decide

/-- Claim C4 as amended: for a record needing enrichment whose lookup
returns a match, the resolver derives the address from the match's
formatted address with the "No address found" fallback when it is absent,
the reference URL as the canonical deep link when the identifier is
present and non-empty and the "No Google Maps URL found" fallback when
the identifier is absent or empty, and the date as today exactly when the
prior date was empty. -/
theorem C4_resolver_derivation (lookup : String → LookupOutcome) (today : String) (row : Row)
    (m : PlaceMatch) (hneed : row.address = "" ∨ row.reference_url = "")
    (hm : lookup row.name = .found m) :
    ∃ a u d, resolveRow lookup today row = ([a, u, d], none) ∧
      (∀ fa, m.formatted_address = some fa → a = fa) ∧
      (m.formatted_address = none → a = "No address found") ∧
      (∀ p, m.place_id = some p → p ≠ "" → u = deepLink p) ∧
      (m.place_id = none ∨ m.place_id = some "" → u = "No Google Maps URL found") ∧
      (row.date_added = "" → d = today) ∧
      (row.date_added ≠ "" → d = row.date_added) := by
  have hinc : rowIncomplete row = true := by
    simp only [rowIncomplete, decide_eq_true_eq]
    exact hneed
  refine ⟨m.formatted_address.getD "No address found",
    if m.place_id.getD "" = "" then "No Google Maps URL found" else deepLink (m.place_id.getD ""),
    if row.date_added = "" then today else row.date_added, ?_, ?_, ?_, ?_, ?_, ?_, ?_⟩
  · simp [resolveRow, hinc, hm]
  · intro fa h; simp [h]
  · intro h; simp [h]
  · intro p h hne; simp [h, hne]
  · rintro (h | h) <;> simp [h]
  · intro h; simp [h]
  · intro h; simp [h]

/-- Claim C4 witness: the amended derivation applied to `rowA` and the
always-matching oracle. -/
theorem C4_resolver_derivation_witness :
    (rowA.address = "" ∨ rowA.reference_url = "") ∧
      fullMatchLookup rowA.name = .found fullMatch ∧
      (∃ a u d, resolveRow fullMatchLookup "2024-05-01" rowA = ([a, u, d], none) ∧
        (∀ fa, fullMatch.formatted_address = some fa → a = fa) ∧
        (fullMatch.formatted_address = none → a = "No address found") ∧
        (∀ p, fullMatch.place_id = some p → p ≠ "" → u = deepLink p) ∧
        (fullMatch.place_id = none ∨ fullMatch.place_id = some "" →
          u = "No Google Maps URL found") ∧
        (rowA.date_added = "" → d = "2024-05-01") ∧
        (rowA.date_added ≠ "" → d = rowA.date_added)) :=
  ⟨by decide, rfl,
    C4_resolver_derivation fullMatchLookup "2024-05-01" rowA fullMatch (by decide) rfl⟩

/-- Claim C7 counterexample: a zero batch size on a headerless snapshot.
The header insertion (a store write) has already happened when the
`ValueError` from `range(0, total_rows, 0)` is raised, so the pass did not
abort before pass work started. -/
theorem C7_zero_batch_size_after_normalization :
    update_google_sheet [rowA] exLookup "2024-05-01" 0
      = .error (.zeroBatchStep true [headers, rowA]) := by decide

/-- Claim C7 as amended: an invalid batch size is not validated up front.
Header normalization and scanning still run; a zero batch size then fails
when batch iteration starts (before any lookup or batch write), and a
negative batch size makes the batch loop run zero times, so the pass
completes with no lookups and no writes. -/
theorem C7_invalid_batch_size_not_validated (data : List Row)
    (lookup : String → LookupOutcome) (today : String) (b : Int) (ins : Bool) (nd : List Row)
    (hn : normalizeData data = some (ins, nd)) :
    (b = 0 → update_google_sheet data lookup today b = .error (.zeroBatchStep ins nd)) ∧
      (b < 0 → update_google_sheet data lookup today b =
        .ok { insertedHeader := ins, snapshot := nd,
              totalCandidates := (scanIndices nd).length, writes := [], failures := [] }) := by
  constructor
  · intro h
    unfold update_google_sheet
    rw [hn]
    dsimp only
    rw [if_pos h]
  · intro h
    have h0 : ¬ b = 0 := by omega
    unfold update_google_sheet
    rw [hn]
    dsimp only
    rw [if_neg h0, if_pos h]

/-- Claim C7 witness: the amended behaviour at batch size `-1` on the
headerless one-row snapshot. -/
theorem C7_invalid_batch_size_witness :
    normalizeData [rowA] = some (true, [headers, rowA]) ∧ (-1 : Int) < 0 ∧
      update_google_sheet [rowA] exLookup "2024-05-01" (-1) =
        .ok { insertedHeader := true, snapshot := [headers, rowA],
              totalCandidates := (scanIndices [headers, rowA]).length,
              writes := [], failures := [] } :=
  ⟨by decide, by decide,
    (C7_invalid_batch_size_not_validated [rowA] exLookup "2024-05-01" (-1) true
        [headers, rowA] (by decide)).2 (by decide)⟩

/-- Claim C8 counterexample: on an empty snapshot the header comparison
`data[0] != headers` itself fails (`IndexError`), so the normalizer does
not succeed on every snapshot shape. -/
theorem C8_empty_snapshot_counterexample : normalizeData [] = none := rfl

/-- Claim C8 as amended: on every non-empty snapshot the Header Normalizer
has no error conditions of its own — it compares row 1 to the header by
exact equality, inserts the header at position 1 (shifting all rows down)
when unequal, and otherwise changes nothing. -/
theorem C8_normalizer_total_on_nonempty (r0 : Row) (rest : List Row) :
    (r0 = headers → normalizeData (r0 :: rest) = some (false, r0 :: rest)) ∧
      (r0 ≠ headers → normalizeData (r0 :: rest) = some (true, headers :: r0 :: rest)) := by
  constructor
  · intro h; simp [normalizeData, h]
  · intro h; simp [normalizeData, h]

/-- Claim C8 witness: scenario 2 of the spec — a table missing its header
gets the header inserted above the untouched data row. -/
theorem C8_normalizer_witness :
    rowHeadless ≠ headers ∧
      normalizeData [rowHeadless] = some (true, [headers, rowHeadless]) :=
  ⟨by decide, (C8_normalizer_total_on_nonempty rowHeadless []).2 (by decide)⟩

/-- Claim C9 counterexample: a present-but-blank `sheet_name` is rejected
with the 400 response `Sheet name is required` instead of falling back to
the configured default table name. -/
theorem C9_blank_sheet_name_rejected :
    trigger_sheet_name (some "") = .error "Sheet name is required" ∧
      trigger_sheet_name (some "") ≠ .ok default_sheet_name := by decide

/-- Claim C9 as amended: an absent `sheet_name` field falls back to the
configured default, a present-but-blank field is rejected with an error
response, and a non-blank field is used exactly. -/
theorem C9_sheet_name_resolution (field : Option String) :
    (field = none → trigger_sheet_name field = .ok default_sheet_name) ∧
      (field = some "" → trigger_sheet_name field = .error "Sheet name is required") ∧
      (∀ s, field = some s → s ≠ "" → trigger_sheet_name field = .ok s) := by
  refine ⟨?_, ?_, ?_⟩
  · intro h; subst h; rfl
  · intro h; subst h; rfl
  · intro s h hs; subst h; simp [trigger_sheet_name, hs]

/-- Claim C9 witness: a non-blank provided sheet name is used exactly. -/
theorem C9_sheet_name_witness :
    ("My Sheet" : String) ≠ "" ∧ trigger_sheet_name (some "My Sheet") = .ok "My Sheet" :=
  ⟨by decide, (C9_sheet_name_resolution (some "My Sheet")).2.2 "My Sheet" rfl (by decide)⟩

/-! ## Claims C5, C6, C10 -/

/-- Claim C6: on a normalized snapshot the scanner output is exactly the
indices (0-based; the sheet position is the index plus one) other than the
header index 0 whose address or reference URL cell is empty, listed in
strictly ascending order, and for every positive batch size the
concatenation of the batch slices is the scanner output, each batch again
ascending. -/
theorem C6_scanner_and_partitioner (data : List Row) (hne : data ≠ [])
    (hd : data.headD default = headers) :
    (∀ i : Nat, i ∈ scanIndices data ↔
        1 ≤ i ∧ ∃ r, data[i]? = some r ∧ (r.address = "" ∨ r.reference_url = "")) ∧
      (scanIndices data).Pairwise (· < ·) ∧
      (∀ b : Nat, 0 < b →
        (toBatches b (scanIndices data)).flatten = scanIndices data ∧
        ∀ batch ∈ toBatches b (scanIndices data), batch.Pairwise (· < ·)) := by
  refine ⟨?_, scanIndices_sorted data, ?_⟩
  · intro i
    rw [mem_scanIndices]
    constructor
    · rintro ⟨r, hget, hp⟩
      have hp2 : r.address = "" ∨ r.reference_url = "" := by
        simpa [rowIncomplete] using hp
      refine ⟨?_, r, hget, hp2⟩
      by_contra h0
      have hi : i = 0 := by omega
      subst hi
      cases data with
      | nil => exact hne rfl
      | cons h t =>
          have hh : h = headers := hd
          rw [List.getElem?_cons_zero] at hget
          have hr : r = h := (Option.some.inj hget).symm
          subst hr
          subst hh
          simp [headers] at hp2
    · rintro ⟨h1, r, hget, hp2⟩
      exact ⟨r, hget, by simpa [rowIncomplete] using hp2⟩
  · intro b hb
    refine ⟨flatten_toBatches hb _, ?_⟩
    intro batch hbatch
    exact List.Pairwise.sublist (sublist_of_mem_toBatchesAux _ _ _ hbatch)
      (scanIndices_sorted data)

/-- Claim C6 witness: the characterization instantiated at `exTable`. -/
theorem C6_scanner_witness :
    exTable ≠ [] ∧ exTable.headD default = headers ∧
      ((∀ i : Nat, i ∈ scanIndices exTable ↔
          1 ≤ i ∧ ∃ r, exTable[i]? = some r ∧ (r.address = "" ∨ r.reference_url = "")) ∧
        (scanIndices exTable).Pairwise (· < ·) ∧
        (∀ b : Nat, 0 < b →
          (toBatches b (scanIndices exTable)).flatten = scanIndices exTable ∧
          ∀ batch ∈ toBatches b (scanIndices exTable), batch.Pairwise (· < ·))) :=
  ⟨by decide, by decide, C6_scanner_and_partitioner exTable (by decide) (by decide)⟩

/-- Claim C5: with a positive batch size the pass never aborts on a lookup
failure — every batch slice still yields its range write, whose payload
resolves every member row — and a row whose lookup raised passes through
as its unchanged `(address, reference_url, date_added)` slice, with the
error message collected in the logged failures. -/
theorem C5_lookup_failure_isolation (data : List Row) (lookup : String → LookupOutcome)
    (today : String) (b : Int) (ins : Bool) (nd : List Row)
    (hn : normalizeData data = some (ins, nd)) (hb : 0 < b) :
    ∃ r, update_google_sheet data lookup today b = .ok r ∧
      r.writes = (toBatches b.toNat (scanIndices nd)).map (fun batch =>
        { colStart := "B", colEnd := "D", startRow := batch.headD 0 + 1,
          endRow := batch.getLastD 0 + 1,
          payload := batch.map fun j => (resolveRow lookup today (nd.getD j default)).1 }) ∧
      ∀ i e, i ∈ scanIndices nd → lookup (nd.getD i default).name = .apiError e →
        (resolveRow lookup today (nd.getD i default)).1 = (nd.getD i default).slice14 ∧
        e ∈ r.failures := by
  have h0 : ¬ b = 0 := by omega
  have hneg : ¬ b < 0 := by omega
  have hup : update_google_sheet data lookup today b =
      .ok { insertedHeader := ins, snapshot := nd,
            totalCandidates := (scanIndices nd).length,
            writes := ((toBatches b.toNat (scanIndices nd)).map
              (batchWrite nd lookup today)).map Prod.fst,
            failures := (((toBatches b.toNat (scanIndices nd)).map
              (batchWrite nd lookup today)).map Prod.snd).flatten } := by
    unfold update_google_sheet
    rw [hn]
    dsimp only
    rw [if_neg h0, if_neg hneg]
  refine ⟨_, hup, ?_, ?_⟩
  · dsimp only
    rw [List.map_map]
    congr 1
    funext batch
    simp [batchWrite, List.map_map, Function.comp]
  · intro i e hi hlook
    obtain ⟨row, hget, hp⟩ := mem_scanIndices.1 hi
    have hgd : nd.getD i default = row := by
      rw [List.getD_eq_getElem?_getD, hget]
      rfl
    rw [hgd] at hlook ⊢
    refine ⟨by simp [resolveRow, hp, hlook], ?_⟩
    have hbNat : 0 < b.toNat := by omega
    have hflat : (toBatches b.toNat (scanIndices nd)).flatten = scanIndices nd :=
      flatten_toBatches hbNat _
    have hi2 : i ∈ (toBatches b.toNat (scanIndices nd)).flatten := by rw [hflat]; exact hi
    obtain ⟨batch, hbatch, hibatch⟩ := List.mem_flatten.1 hi2
    dsimp only
    apply List.mem_flatten.2
    refine ⟨(batchWrite nd lookup today batch).2, ?_, ?_⟩
    · exact List.mem_map_of_mem _ (List.mem_map_of_mem _ hbatch)
    · show e ∈ (batchWrite nd lookup today batch).2
      unfold batchWrite
      dsimp only
      apply List.mem_filterMap.2
      refine ⟨resolveRow lookup today row, ?_, ?_⟩
      · refine List.mem_map_of_mem _ ?_
        have : row ∈ batch.map fun index => nd.getD index default := by
          rw [← hgd]
          exact List.mem_map_of_mem _ hibatch
        exact this
      · simp [resolveRow, hp, hlook]

/-- Claim C5 witness: scenario 5 — batch size 1, three incomplete rows,
the first lookup raising an adapter error. -/
theorem C5_isolation_witness :
    normalizeData failTable = some (false, failTable) ∧ (0 : Int) < 1 ∧
      (∃ r, update_google_sheet failTable failLookup "2024-05-01" 1 = .ok r ∧
        r.writes = (toBatches (1 : Int).toNat (scanIndices failTable)).map (fun batch =>
          { colStart := "B", colEnd := "D", startRow := batch.headD 0 + 1,
            endRow := batch.getLastD 0 + 1,
            payload := batch.map fun j =>
              (resolveRow failLookup "2024-05-01" (failTable.getD j default)).1 }) ∧
        ∀ i e, i ∈ scanIndices failTable →
          failLookup (failTable.getD i default).name = .apiError e →
          (resolveRow failLookup "2024-05-01" (failTable.getD i default)).1
            = (failTable.getD i default).slice14 ∧ e ∈ r.failures) :=
  ⟨by decide, by decide,
    C5_lookup_failure_isolation failTable failLookup "2024-05-01" 1 false failTable
      (by decide) (by decide)⟩

/-- Claim C10: every completed pass mutates the store only through the
single optional header insertion and the batch writes; every batch write
targets the literal columns B..D with three-cell payload rows, and applying
any such sequence of writes leaves the name and notes columns of every row
unchanged. -/
theorem C10_pass_frame (data : List Row) (lookup : String → LookupOutcome)
    (today : String) (b : Int) (r : PassResult)
    (hok : update_google_sheet data lookup today b = .ok r) :
    normalizeData data = some (r.insertedHeader, r.snapshot) ∧
      (∀ w ∈ r.writes, w.colStart = "B" ∧ w.colEnd = "D" ∧ ∀ p ∈ w.payload, p.length = 3) ∧
      run_pass data lookup today b = .ok (r.writes.foldl applyWrite r.snapshot) ∧
      ∀ sheet : List Row,
        (r.writes.foldl applyWrite sheet).map Row.name = sheet.map Row.name ∧
        (r.writes.foldl applyWrite sheet).map Row.notes = sheet.map Row.notes := by
  have hmain : normalizeData data = some (r.insertedHeader, r.snapshot) ∧
      ∀ w ∈ r.writes, w.colStart = "B" ∧ w.colEnd = "D" ∧ ∀ p ∈ w.payload, p.length = 3 := by
    unfold update_google_sheet at hok
    cases hnn : normalizeData data with
    | none => rw [hnn] at hok; exact Except.noConfusion hok
    | some pr =>
        obtain ⟨ins, nd⟩ := pr
        rw [hnn] at hok
        dsimp only at hok
        by_cases h0 : b = 0
        · rw [if_pos h0] at hok; exact Except.noConfusion hok
        · rw [if_neg h0] at hok
          by_cases hneg : b < 0
          · rw [if_pos hneg] at hok
            have heq := Except.ok.inj hok
            subst heq
            exact ⟨rfl, by intro w hw; simp at hw⟩
          · rw [if_neg hneg] at hok
            have heq := Except.ok.inj hok
            subst heq
            refine ⟨rfl, ?_⟩
            intro w hw
            simp only [List.map_map, List.mem_map] at hw
            obtain ⟨batch, hbatch, rfl⟩ := hw
            refine ⟨rfl, rfl, ?_⟩
            intro p hp
            simp only [Function.comp, batchWrite, List.map_map, List.mem_map] at hp
            obtain ⟨j, hj, rfl⟩ := hp
            exact resolveRow_fst_length _ _ _
  refine ⟨hmain.1, hmain.2, ?_, ?_⟩
  · unfold run_pass
    rw [hok]
  · intro sheet
    exact ⟨foldl_applyWrite_map_name _ _, foldl_applyWrite_map_notes _ _⟩

/-- Claim C10 witness: the frame property at the `exTable` pass. -/
theorem C10_pass_frame_witness :
    update_google_sheet exTable exLookup "2024-05-01" 100 = .ok exResult ∧
      (normalizeData exTable = some (exResult.insertedHeader, exResult.snapshot) ∧
        (∀ w ∈ exResult.writes, w.colStart = "B" ∧ w.colEnd = "D" ∧
          ∀ p ∈ w.payload, p.length = 3) ∧
        run_pass exTable exLookup "2024-05-01" 100
          = .ok (exResult.writes.foldl applyWrite exResult.snapshot) ∧
        ∀ sheet : List Row,
          (exResult.writes.foldl applyWrite sheet).map Row.name = sheet.map Row.name ∧
          (exResult.writes.foldl applyWrite sheet).map Row.notes = sheet.map Row.notes) :=
  ⟨by decide, C10_pass_frame exTable exLookup "2024-05-01" 100 exResult (by decide)⟩

end RestaurantTracker
